import Mathlib

/-!
Verification of the anti-spam email subsystem: a shallow embedding of the
`Email` value object, the `ValkeyBannedEmailRepository`, the
`RepositoryAntiSpamAdapter` (anti-spam gate) and the
`InMemoryBannedEmailRepository`, together with theorems settling the
behavioural properties stated in the design document.

Strings are modelled as lists of characters (`Str`).  JavaScript string
primitives used by the code (`trim`, `toLowerCase`, `includes`, `length`)
are modelled on `Str`; the ASCII fragment relevant to email addresses is
modelled exactly.
-/

/-- The string model: a JavaScript string as its list of characters. -/
abbrev Str := List Char

/-- Model of `String.prototype.trim`: remove leading and trailing
whitespace.  (JS `\s`-whitespace is modelled by `Char.isWhitespace`.) -/
def jsTrim (s : Str) : Str :=
  ((s.dropWhile Char.isWhitespace).reverse.dropWhile Char.isWhitespace).reverse

/-- Model of `String.prototype.toLowerCase` on the basic-latin fragment:
lower-case every character. -/
def jsToLower (s : Str) : Str :=
  s.map Char.toLower

namespace Email

/-- `Email.hasConsecutiveDots`, i.e. `email.includes('..')`. -/
def hasConsecutiveDots : Str → Bool
  | [] => false
  | [_] => false
  | a :: b :: rest => (a = '.' && b = '.') || hasConsecutiveDots (b :: rest)

/-- The part of the string strictly after its first `'@'` (empty when there
is no `'@'`): the "domain part" used to state the syntax rules. -/
def afterFirstAt (s : Str) : Str :=
  (s.dropWhile (fun c => c != '@')).drop 1

/-- Matching semantics of `Email.EMAIL_REGEX`, the anchored regular
expression `/^[^\s@]+@[^\s@]+\.[^\s@]+$/`.  Because the character class
excludes `'@'`, a match forces exactly one `'@'`; the local part (before
the `'@'`) must be non-empty; no character may be whitespace; and the
domain part must contain a `'.'` that is neither its first nor its last
character (the regex splits the domain as `[^\s@]+ '.' [^\s@]+` with both
sides non-empty). -/
def emailRegexTest (s : Str) : Bool :=
  (s.countP (fun c => decide (c = '@')) == 1) &&
  !(s.takeWhile (fun c => c != '@')).isEmpty &&
  s.all (fun c => !c.isWhitespace) &&
  decide ('.' ∈ ((afterFirstAt s).drop 1).dropLast)

/-- `Email.isValid`: length in 1..254, no consecutive dots, and the
regular-expression test. -/
def isValid (email : Str) : Bool :=
  decide (0 < email.length) &&
  decide (email.length ≤ 254) &&
  !hasConsecutiveDots email &&
  emailRegexTest email

/-- The typed rejections of identity construction: `InvalidFormat` (the
constructor`s `Invalid email format` error, carrying the original input)
and `Blocked` (the `Email is blocked or blacklisted` error of
`createWithAntiSpam`, carrying the string it was given). -/
inductive EmailError where
  | invalidFormat (input : Str)
  | blocked (input : Str)
deriving DecidableEq, Repr

/-- The `Email` constructor (also `Email.create`, which merely forwards to
it): trim the input, check `isValid` on the trimmed string, throw
`Invalid email format` (carrying the original input) on failure, and
otherwise store the trimmed, lower-cased value. -/
def create (email : Str) : Except EmailError Str :=
  let normalizedEmail := jsTrim email
  if !(isValid normalizedEmail) then
    .error (.invalidFormat email)
  else
    .ok (jsToLower normalizedEmail)

/-- `Email.createWithAntiSpam`: first ask the anti-spam service about the
raw input; when it reports blocked, throw `Email is blocked or
blacklisted` carrying the raw input; otherwise construct as `create`. -/
def createWithAntiSpam (isBlockedGate : Str → Bool) (email : Str) : Except EmailError Str :=
  if isBlockedGate email then
    .error (.blocked email)
  else
    create email

end Email

/-- The persistent banned set held by the Valkey store under the single key
`banned:emails`: its list of members.  Valkey set semantics keep members
unique; the primitive commands below preserve that. -/
abbrev Store := List Str

namespace Valkey

/-- Valkey `SISMEMBER key m`. -/
def sismember (st : Store) (m : Str) : Bool :=
  decide (m ∈ st)

/-- Valkey `SADD key [m]`: adds `m` unless already a member. -/
def sadd (st : Store) (m : Str) : Store :=
  if m ∈ st then st else st ++ [m]

/-- Valkey `SREM key [m]`: removes the member `m`. -/
def srem (st : Store) (m : Str) : Store :=
  st.filter (fun x => decide (x ≠ m))

/-- Valkey `SMEMBERS key`. -/
def smembers (st : Store) : List Str :=
  st

/-- Valkey `DEL [key]`: the set under the key becomes empty. -/
def del (_st : Store) : Store :=
  []

end Valkey

namespace ValkeyBannedEmailRepository

/-- `isBanned`: `sismember` of the lower-cased argument. -/
def isBanned (st : Store) (email : Str) : Bool :=
  Valkey.sismember st (jsToLower email)

/-- `ban`: `sadd` of the lower-cased argument. -/
def ban (st : Store) (email : Str) : Store :=
  Valkey.sadd st (jsToLower email)

/-- `unban`: `srem` of the lower-cased argument. -/
def unban (st : Store) (email : Str) : Store :=
  Valkey.srem st (jsToLower email)

/-- `getAllBanned`: `smembers`, then lower-case each member.  (The
source's `typeof === 'string'` filter is the identity here: every member
of the modelled store is a string.) -/
def getAllBanned (st : Store) : List Str :=
  (Valkey.smembers st).map jsToLower

/-- `clear`: `DEL` of the set key. -/
def clear (st : Store) : Store :=
  Valkey.del st

end ValkeyBannedEmailRepository

/-- One invocation of a repository operation, used to reason about
arbitrary operation sequences. -/
inductive RepoOp where
  | isBanned (email : Str)
  | ban (email : Str)
  | unban (email : Str)
  | getAllBanned
  | clear
deriving DecidableEq

/-- Effect of one repository operation on the store.  `isBanned` and
`getAllBanned` issue only the read commands `SISMEMBER`/`SMEMBERS`, so
they leave the store unchanged. -/
def applyOp (st : Store) : RepoOp → Store
  | .isBanned _ => st
  | .ban e => ValkeyBannedEmailRepository.ban st e
  | .unban e => ValkeyBannedEmailRepository.unban st e
  | .getAllBanned => st
  | .clear => ValkeyBannedEmailRepository.clear st

/-- Effect of a sequence of repository operations. -/
def applyOps (st : Store) (ops : List RepoOp) : Store :=
  ops.foldl applyOp st

namespace RepositoryAntiSpamAdapter

/-- `RepositoryAntiSpamAdapter.isBlocked`.  The injected repository`s
fallible `isBanned` is a function into `Except ε Bool`.  The result pairs
the returned boolean with the list of errors reported to `console.error`
(the observability collaborator): on repository success the result is
returned verbatim and nothing is logged; on repository failure the error
is logged and `false` is returned (fail-open).  The function is total:
it never propagates the failure. -/
def isBlocked {ε : Type} (repoIsBanned : Str → Except ε Bool) (email : Str) :
    Bool × List ε :=
  match repoIsBanned email with
  | .ok result => (result, [])
  | .error err => (false, [err])

end RepositoryAntiSpamAdapter

/-- The repository port of a Valkey store state that answers successfully
(no connectivity failure). -/
def repoOfStore (st : Store) : Str → Except String Bool :=
  fun e => .ok (ValkeyBannedEmailRepository.isBanned st e)

/-- The gate built, as in production wiring, from the adapter over the
Valkey repository on store state `st`. -/
def gateOfStore (st : Store) : Str → Bool :=
  fun e => (RepositoryAntiSpamAdapter.isBlocked (repoOfStore st) e).1

namespace InMemoryBannedEmailRepository

/-- `isBanned` of the in-memory repository: unconditionally throws
`Method not implemented.`. -/
def isBanned (_st : Store) (_email : Str) : Except String Bool :=
  .error "Method not implemented."

/-- `ban` of the in-memory repository: unconditionally throws. -/
def ban (_st : Store) (_email : Str) : Except String Store :=
  .error "Method not implemented."

/-- `unban` of the in-memory repository: unconditionally throws. -/
def unban (_st : Store) (_email : Str) : Except String Store :=
  .error "Method not implemented."

/-- `getAllBanned` of the in-memory repository: unconditionally throws. -/
def getAllBanned (_st : Store) : Except String (List Str) :=
  .error "Method not implemented."

/-- `clear` of the in-memory repository: `bannedEmails.clear()`, which
succeeds with the emptied set. -/
def clear (_st : Store) : Except String Store :=
  .ok []

end InMemoryBannedEmailRepository

deriving instance DecidableEq for Except

section Helpers

lemma char_toNat_ofNat {n : Nat} (h : n.isValidChar) : (Char.ofNat n).toNat = n := by
  rw [Char.ofNat, dif_pos h]
  simp [Char.ofNatAux, Char.toNat, UInt32.toNat, BitVec.toNat_ofNatLt]

lemma char_toLower_toLower (c : Char) : c.toLower.toLower = c.toLower := by
  show Char.toLower (Char.toLower c) = Char.toLower c
  unfold Char.toLower
  by_cases h : c.toNat ≥ 65 ∧ c.toNat ≤ 90
  · rw [if_pos h]
    have hv : (c.toNat + 32).isValidChar := Or.inl (by omega)
    have ht : (Char.ofNat (c.toNat + 32)).toNat = c.toNat + 32 := char_toNat_ofNat hv
    rw [if_neg]
    rw [ht]
    omega
  · rw [if_neg h, if_neg h]

lemma jsToLower_idem (s : Str) : jsToLower (jsToLower s) = jsToLower s := by
  unfold jsToLower
  rw [List.map_map]
  exact List.map_congr_left (fun a _ => char_toLower_toLower a)

lemma jsTrim_decomp (s : Str) :
    ∃ p q, s = p ++ jsTrim s ++ q ∧
      (∀ c ∈ p, c.isWhitespace = true) ∧ (∀ c ∈ q, c.isWhitespace = true) := by
  refine ⟨s.takeWhile Char.isWhitespace,
    ((s.dropWhile Char.isWhitespace).reverse.takeWhile Char.isWhitespace).reverse,
    ?_, fun c hc => List.mem_takeWhile_imp hc,
    fun c hc => List.mem_takeWhile_imp (List.mem_reverse.mp hc)⟩
  conv_lhs => rw [← List.takeWhile_append_dropWhile Char.isWhitespace s]
  rw [List.append_assoc]
  congr 1
  conv_lhs => rw [← List.reverse_reverse (s.dropWhile Char.isWhitespace),
    ← List.takeWhile_append_dropWhile Char.isWhitespace (s.dropWhile Char.isWhitespace).reverse]
  rw [List.reverse_append]
  rfl

lemma mem_of_mem_jsTrim {c : Char} {s : Str} (h : c ∈ jsTrim s) : c ∈ s := by
  obtain ⟨p, q, hs, _, _⟩ := jsTrim_decomp s
  rw [hs]
  simp [h]

lemma ws_ne_dot {c : Char} (h : c.isWhitespace = true) : c ≠ '.' := by
  rintro rfl
  exact absurd h (by decide)

lemma ws_ne_at {c : Char} (h : c.isWhitespace = true) : c ≠ '@' := by
  rintro rfl
  exact absurd h (by decide)

lemma hasDD_cons_of_ne {w : Char} (hw : w ≠ '.') (ys : Str) :
    Email.hasConsecutiveDots (w :: ys) = Email.hasConsecutiveDots ys := by
  cases ys with
  | nil => simp [Email.hasConsecutiveDots]
  | cons b rest => simp [Email.hasConsecutiveDots, hw]

lemma hasDD_eq_false_of_no_dot {q : Str} (hq : ∀ c ∈ q, c ≠ '.') :
    Email.hasConsecutiveDots q = false := by
  induction q with
  | nil => rfl
  | cons a q ih =>
    rw [hasDD_cons_of_ne (hq a (by simp))]
    exact ih (fun c hc => hq c (by simp [hc]))

lemma hasDD_append_left {p x : Str} (hp : ∀ c ∈ p, c ≠ '.') :
    Email.hasConsecutiveDots (p ++ x) = Email.hasConsecutiveDots x := by
  induction p with
  | nil => rfl
  | cons a p ih =>
    rw [List.cons_append, hasDD_cons_of_ne (hp a (by simp))]
    exact ih (fun c hc => hp c (by simp [hc]))

lemma hasDD_append_right {x q : Str} (hq : ∀ c ∈ q, c ≠ '.') :
    Email.hasConsecutiveDots (x ++ q) = Email.hasConsecutiveDots x := by
  induction x with
  | nil => simpa using hasDD_eq_false_of_no_dot hq
  | cons a x ih =>
    cases x with
    | nil =>
      cases q with
      | nil => rfl
      | cons b q' =>
        have hb : b ≠ '.' := hq b (by simp)
        have hrest : Email.hasConsecutiveDots (b :: q') = false :=
          hasDD_eq_false_of_no_dot hq
        simp [Email.hasConsecutiveDots, hb, hrest]
    | cons b x' =>
      simp only [List.cons_append] at ih ⊢
      simp only [Email.hasConsecutiveDots, ih]

lemma hasDD_jsTrim_of_hasDD {s : Str} (h : Email.hasConsecutiveDots s = true) :
    Email.hasConsecutiveDots (jsTrim s) = true := by
  obtain ⟨p, q, hs, hp, hq⟩ := jsTrim_decomp s
  have hp' : ∀ c ∈ p, c ≠ '.' := fun c hc => ws_ne_dot (hp c hc)
  have hq' : ∀ c ∈ q, c ≠ '.' := fun c hc => ws_ne_dot (hq c hc)
  rw [hs, List.append_assoc, hasDD_append_left hp', hasDD_append_right hq'] at h
  exact h

lemma afterFirstAt_eq_nil_of_not_mem {s : Str} (h : '@' ∉ s) : Email.afterFirstAt s = [] := by
  unfold Email.afterFirstAt
  rw [List.dropWhile_eq_nil_iff.mpr (fun x hx => by
    simp only [bne_iff_ne, ne_eq]
    rintro rfl
    exact h hx)]
  rfl

lemma dot_afterFirstAt_of_trim {s : Str} (h : '.' ∈ Email.afterFirstAt (jsTrim s)) :
    '.' ∈ Email.afterFirstAt s := by
  obtain ⟨p, q, hs, hp, hq⟩ := jsTrim_decomp s
  by_cases hat : '@' ∈ jsTrim s
  · generalize ht : jsTrim s = t at hs h hat
    rw [hs]
    have hp' : ∀ c ∈ p, (c != '@') = true := fun c hc => by
      simp only [bne_iff_ne, ne_eq]
      exact ws_ne_at (hp c hc)
    have hne : t.dropWhile (fun c => c != '@') ≠ [] := by
      intro hnil
      have hall := List.dropWhile_eq_nil_iff.mp hnil '@' hat
      simp at hall
    obtain ⟨a, rest, hd⟩ := List.exists_cons_of_ne_nil hne
    unfold Email.afterFirstAt at h ⊢
    rw [List.append_assoc, List.dropWhile_append_of_pos hp', List.dropWhile_append,
      if_neg (by rw [hd]; simp), hd]
    rw [hd] at h
    exact List.mem_append.mpr (Or.inl h)
  · rw [afterFirstAt_eq_nil_of_not_mem hat] at h
    exact absurd h (List.not_mem_nil _)

lemma isValid_false_of_no_at {e : Str} (h : '@' ∉ e) : Email.isValid e = false := by
  have hc : e.countP (fun c => decide (c = '@')) = 0 :=
    List.countP_eq_zero.mpr (fun a ha => by
      simp only [decide_eq_true_eq]
      rintro rfl
      exact h ha)
  simp [Email.isValid, Email.emailRegexTest, hc]

lemma isValid_false_of_no_domain_dot {s : Str} (h : '.' ∉ Email.afterFirstAt s) :
    Email.isValid (jsTrim s) = false := by
  have h2 : '.' ∉ Email.afterFirstAt (jsTrim s) := fun hx => h (dot_afterFirstAt_of_trim hx)
  have h3 : '.' ∉ ((Email.afterFirstAt (jsTrim s)).drop 1).dropLast := fun hx =>
    h2 (List.drop_subset 1 _ ((List.dropLast_sublist _).subset hx))
  have hreg : Email.emailRegexTest (jsTrim s) = false := by
    unfold Email.emailRegexTest
    rw [decide_eq_false h3]
    simp
  simp [Email.isValid, hreg]

lemma isValid_false_of_dd {s : Str} (h : Email.hasConsecutiveDots s = true) :
    Email.isValid (jsTrim s) = false := by
  simp [Email.isValid, hasDD_jsTrim_of_hasDD h]

lemma isValid_false_of_long {e : Str} (h : 254 < e.length) : Email.isValid e = false := by
  have h2 : ¬(e.length ≤ 254) := by omega
  simp [Email.isValid, h2]

lemma create_eq_error {l : Str} (h : Email.isValid (jsTrim l) = false) :
    Email.create l = .error (.invalidFormat l) := by
  simp [Email.create, h]

lemma create_eq_ok {l : Str} (h : Email.isValid (jsTrim l) = true) :
    Email.create l = .ok (jsToLower (jsTrim l)) := by
  simp [Email.create, h]

lemma mem_sadd_self (st : Store) (m : Str) : m ∈ Valkey.sadd st m := by
  unfold Valkey.sadd
  split
  · assumption
  · simp

lemma sadd_sadd (st : Store) (m : Str) :
    Valkey.sadd (Valkey.sadd st m) m = Valkey.sadd st m := by
  by_cases h : m ∈ st
  · simp [Valkey.sadd, h]
  · simp [Valkey.sadd, h]

lemma isBanned_ban (st : Store) (x : Str) :
    ValkeyBannedEmailRepository.isBanned (ValkeyBannedEmailRepository.ban st x) x = true := by
  simp only [ValkeyBannedEmailRepository.isBanned, ValkeyBannedEmailRepository.ban,
    Valkey.sismember]
  exact decide_eq_true (mem_sadd_self st (jsToLower x))

lemma isBanned_unban_ban (st : Store) (x : Str) :
    ValkeyBannedEmailRepository.isBanned
      (ValkeyBannedEmailRepository.unban (ValkeyBannedEmailRepository.ban st x) x) x = false := by
  simp [ValkeyBannedEmailRepository.isBanned, ValkeyBannedEmailRepository.unban,
    ValkeyBannedEmailRepository.ban, Valkey.sismember, Valkey.srem, List.mem_filter]

lemma unban_not_mem {st : Store} {y : Str} (h : jsToLower y ∉ st) :
    ValkeyBannedEmailRepository.unban st y = st := by
  simp only [ValkeyBannedEmailRepository.unban, Valkey.srem]
  refine List.filter_eq_self.mpr (fun a ha => ?_)
  simp only [ne_eq, decide_eq_true_eq]
  rintro rfl
  exact h ha

lemma applyOp_inv {st : Store} (hlow : ∀ m ∈ st, jsToLower m = m) (hnd : st.Nodup)
    (op : RepoOp) :
    (∀ m ∈ applyOp st op, jsToLower m = m) ∧ (applyOp st op).Nodup := by
  cases op with
  | isBanned e => exact ⟨hlow, hnd⟩
  | getAllBanned => exact ⟨hlow, hnd⟩
  | clear =>
    constructor <;> simp [applyOp, ValkeyBannedEmailRepository.clear, Valkey.del]
  | unban e =>
    refine ⟨fun m hm => hlow m (List.mem_of_mem_filter hm), hnd.filter _⟩
  | ban e =>
    simp only [applyOp, ValkeyBannedEmailRepository.ban, Valkey.sadd]
    by_cases hm : jsToLower e ∈ st
    · rw [if_pos hm]
      exact ⟨hlow, hnd⟩
    · rw [if_neg hm]
      constructor
      · intro m hm'
        rcases List.mem_append.mp hm' with hin | hin
        · exact hlow m hin
        · rw [List.mem_singleton.mp hin]
          exact jsToLower_idem e
      · rw [List.nodup_append]
        refine ⟨hnd, List.nodup_singleton _, fun a ha hb => ?_⟩
        rw [List.mem_singleton.mp hb] at ha
        exact hm ha

lemma applyOps_cons (st : Store) (op : RepoOp) (ops : List RepoOp) :
    applyOps st (op :: ops) = applyOps (applyOp st op) ops := rfl

lemma applyOps_inv (ops : List RepoOp) :
    (∀ m ∈ applyOps [] ops, jsToLower m = m) ∧ (applyOps [] ops).Nodup := by
  suffices hgen : ∀ ops (st : Store), (∀ m ∈ st, jsToLower m = m) → st.Nodup →
      (∀ m ∈ applyOps st ops, jsToLower m = m) ∧ (applyOps st ops).Nodup by
    exact hgen ops [] (by simp) List.nodup_nil
  intro ops
  induction ops with
  | nil => exact fun st h1 h2 => ⟨h1, h2⟩
  | cons op ops ih =>
    intro st h1 h2
    rw [applyOps_cons]
    have hstep := applyOp_inv h1 h2 op
    exact ih _ hstep.1 hstep.2

lemma not_banned_of_no_ban (ops : List RepoOp) (y : Str)
    (h : ∀ e, RepoOp.ban e ∈ ops → jsToLower e ≠ jsToLower y) :
    ValkeyBannedEmailRepository.isBanned (applyOps [] ops) y = false := by
  suffices hgen : ∀ ops (st : Store),
      (∀ e, RepoOp.ban e ∈ ops → jsToLower e ≠ jsToLower y) →
      jsToLower y ∉ st → jsToLower y ∉ applyOps st ops by
    have hst := hgen ops [] h (by simp)
    simp [ValkeyBannedEmailRepository.isBanned, Valkey.sismember, hst]
  intro ops
  induction ops with
  | nil => exact fun st _ h1 => h1
  | cons op ops ih =>
    intro st hops h1
    rw [applyOps_cons]
    refine ih _ (fun e he => hops e (by simp [he])) ?_
    cases op with
    | isBanned e => exact h1
    | getAllBanned => exact h1
    | clear => simp [applyOp, ValkeyBannedEmailRepository.clear, Valkey.del]
    | unban e =>
      intro hc
      exact h1 (List.mem_of_mem_filter hc)
    | ban e =>
      simp only [applyOp, ValkeyBannedEmailRepository.ban, Valkey.sadd]
      split
      · exact h1
      · intro hmem
        rcases List.mem_append.mp hmem with hin | hin
        · exact h1 hin
        · exact hops e (by simp) (List.mem_singleton.mp hin).symm

end Helpers

/-- Claim C1: the anti-spam gate is total, returns the repository's answer
verbatim on success, and on any repository error reports the error to the
observability collaborator and returns `false` (fail-open). -/
theorem claim_C1_gate_fail_open {ε : Type} (repoIsBanned : Str → Except ε Bool) (email : Str) :
    (∀ b, repoIsBanned email = .ok b →
      RepositoryAntiSpamAdapter.isBlocked repoIsBanned email = (b, [])) ∧
    (∀ err, repoIsBanned email = .error err →
      RepositoryAntiSpamAdapter.isBlocked repoIsBanned email = (false, [err])) := by
  constructor
  · intro b hb
    simp [RepositoryAntiSpamAdapter.isBlocked, hb]
  · intro err he
    simp [RepositoryAntiSpamAdapter.isBlocked, he]

/-- Claim C1 witness: the gate at a concrete failing repository and at a
concrete succeeding repository. -/
theorem claim_C1_witness :
    RepositoryAntiSpamAdapter.isBlocked
      (fun _ => (Except.error "StoreUnavailable" : Except String Bool)) (("a@b.c").data)
      = (false, ["StoreUnavailable"]) ∧
    RepositoryAntiSpamAdapter.isBlocked
      (fun _ => (Except.ok true : Except String Bool)) (("a@b.c").data) = (true, []) :=
  ⟨(claim_C1_gate_fail_open _ _).2 "StoreUnavailable" rfl,
   (claim_C1_gate_fail_open _ _).1 true rfl⟩

/-- Claim C2 counterexample: the anti-spam-aware constructor consults the
gate BEFORE syntax validation and on the RAW input.  With a gate that
blocks everything, the syntactically invalid input `no-at-sign` is
rejected as `Blocked`, not `InvalidFormat`; and with a gate that blocks
exactly the raw string `" A@B.C "`, construction fails `Blocked` carrying
the raw (untrimmed, not lower-cased) string — the gate was not given the
normalized address. -/
theorem claim_C2_counterexample :
    Email.createWithAntiSpam (fun _ => true) (("no-at-sign").data)
        = .error (.blocked (("no-at-sign").data)) ∧
    Email.createWithAntiSpam (fun _ => true) (("no-at-sign").data)
        ≠ .error (.invalidFormat (("no-at-sign").data)) ∧
    Email.createWithAntiSpam (fun s => decide (s = (" A@B.C ").data)) ((" A@B.C ").data)
        = .error (.blocked ((" A@B.C ").data)) :=
  ⟨by decide, by decide, by decide⟩

/-- Claim C2 (amended): the anti-spam-aware constructor first performs the
Gate.isBlocked check on the raw input string; when the gate reports
blocked, construction fails with `Blocked` carrying the raw input;
otherwise it behaves exactly as the plain constructor (trim, syntax
validation with `InvalidFormat` on failure, then the immutable normalized
identity). -/
theorem claim_C2_gate_first (gate : Str → Bool) (email : Str) :
    (gate email = true →
      Email.createWithAntiSpam gate email = .error (.blocked email)) ∧
    (gate email = false →
      Email.createWithAntiSpam gate email = Email.create email) ∧
    (gate email = false → Email.isValid (jsTrim email) = true →
      Email.createWithAntiSpam gate email = .ok (jsToLower (jsTrim email))) := by
  refine ⟨fun h => by simp [Email.createWithAntiSpam, h],
    fun h => by simp [Email.createWithAntiSpam, h],
    fun h hv => ?_⟩
  simp [Email.createWithAntiSpam, h, create_eq_ok hv]

/-- Claim C2 witness: the amended behaviour at concrete gates and input. -/
theorem claim_C2_witness :
    Email.createWithAntiSpam (fun _ => true) (("x@y.z").data)
        = .error (.blocked (("x@y.z").data)) ∧
    Email.createWithAntiSpam (fun _ => false) (("x@y.z").data)
        = Email.create (("x@y.z").data) :=
  ⟨(claim_C2_gate_first _ _).1 rfl, (claim_C2_gate_first _ _).2.1 rfl⟩

/-- Claim C3 counterexample: the repository lower-cases but does NOT trim.
`ban " A@B.C "` differs from `ban` of the trimmed lower-cased address, and
after `ban " A@B.C "` the trimmed normalized address is not banned. -/
theorem claim_C3_counterexample :
    ValkeyBannedEmailRepository.ban [] ((" A@B.C ").data)
        ≠ ValkeyBannedEmailRepository.ban [] (jsToLower (jsTrim ((" A@B.C ").data))) ∧
    ValkeyBannedEmailRepository.isBanned
        (ValkeyBannedEmailRepository.ban [] ((" A@B.C ").data))
        (jsToLower (jsTrim ((" A@B.C ").data))) = false :=
  ⟨by decide, by decide⟩

/-- Claim C3 (amended): every repository operation normalizes its email
argument to the lower-cased (but not trimmed) form before touching the
store: `op e = op (lowercase e)` for `isBanned`, `ban` and `unban`, and
after any sequence of operations starting from the empty store every
member of the persisted banned set is lower-cased (a fixed point of
lower-casing). -/
theorem claim_C3_lowercase_normalization :
    (∀ st e, ValkeyBannedEmailRepository.isBanned st e
        = ValkeyBannedEmailRepository.isBanned st (jsToLower e)) ∧
    (∀ st e, ValkeyBannedEmailRepository.ban st e
        = ValkeyBannedEmailRepository.ban st (jsToLower e)) ∧
    (∀ st e, ValkeyBannedEmailRepository.unban st e
        = ValkeyBannedEmailRepository.unban st (jsToLower e)) ∧
    (∀ ops, ∀ m ∈ applyOps [] ops, jsToLower m = m) := by
  refine ⟨?_, ?_, ?_, fun ops => (applyOps_inv ops).1⟩ <;> intro st e <;>
    simp [ValkeyBannedEmailRepository.isBanned, ValkeyBannedEmailRepository.ban,
      ValkeyBannedEmailRepository.unban, jsToLower_idem]

/-- Claim C3 witness: lower-case normalization at concrete values, and a
concrete store member that is a fixed point of lower-casing. -/
theorem claim_C3_witness :
    ValkeyBannedEmailRepository.ban [] (("X@Y.Z").data)
        = ValkeyBannedEmailRepository.ban [] (jsToLower (("X@Y.Z").data)) ∧
    jsToLower (("x@y.z").data) = ("x@y.z").data :=
  ⟨claim_C3_lowercase_normalization.2.1 [] (("X@Y.Z").data),
   claim_C3_lowercase_normalization.2.2.2 [RepoOp.ban (("X@Y.Z").data)]
     (("x@y.z").data) (by decide)⟩

/-- Claim C4 (amended): for every string that lacks an `@`, or lacks a `.`
in its domain part, or contains `..`, or has length 0, or whose trimmed
form has length greater than 254, plain construction fails with
`InvalidFormat` carrying the original input, and the anti-spam-aware
construction does so too whenever the gate does not block the raw
input. -/
theorem claim_C4_invalid_format (l : Str)
    (h : ('@' ∉ l) ∨ ('.' ∉ Email.afterFirstAt l) ∨ Email.hasConsecutiveDots l = true ∨
      l = [] ∨ 254 < (jsTrim l).length) :
    Email.create l = .error (.invalidFormat l) ∧
    ∀ gate : Str → Bool, gate l = false →
      Email.createWithAntiSpam gate l = .error (.invalidFormat l) := by
  have hval : Email.isValid (jsTrim l) = false := by
    rcases h with h | h | h | h | h
    · exact isValid_false_of_no_at (fun hc => h (mem_of_mem_jsTrim hc))
    · exact isValid_false_of_no_domain_dot h
    · exact isValid_false_of_dd h
    · rw [h]
      decide
    · exact isValid_false_of_long h
  refine ⟨create_eq_error hval, fun gate hg => ?_⟩
  simp [Email.createWithAntiSpam, hg, create_eq_error hval]

/-- Claim C4 witness: the theorem applied to a concrete address with no
dot in its domain part, through both entry points. -/
theorem claim_C4_witness :
    Email.create (("nodomaindot@example").data)
        = .error (.invalidFormat (("nodomaindot@example").data)) ∧
    Email.createWithAntiSpam (fun _ => false) (("nodomaindot@example").data)
        = .error (.invalidFormat (("nodomaindot@example").data)) :=
  ⟨(claim_C4_invalid_format _ (Or.inr (Or.inl (by decide)))).1,
   (claim_C4_invalid_format _ (Or.inr (Or.inl (by decide)))).2 (fun _ => false) rfl⟩

set_option maxRecDepth 4000 in
/-- Claim C4 counterexample: a 255-character input (250 spaces followed by
a valid 5-character address) constructs successfully, because the length
bound is checked after trimming; and with a gate that blocks everything
the anti-spam-aware entry point rejects a syntactically invalid input
with `Blocked`, not `InvalidFormat`. -/
theorem claim_C4_counterexample :
    (List.replicate 250 ' ' ++ ("a@b.c").data).length = 255 ∧
    Email.create (List.replicate 250 ' ' ++ ("a@b.c").data) = .ok (("a@b.c").data) ∧
    Email.createWithAntiSpam (fun _ => true) (("bad").data)
        = .error (.blocked (("bad").data)) :=
  ⟨by decide, by decide, by decide⟩

/-- Claim C5: after `ban x`, `isBanned x` is true; repeating `ban x` any
number of times is idempotent and leaves `isBanned x` true; `isBanned y`
is false when no `ban` in the operation sequence from the empty store
matches `y` up to lower-casing; and `isBanned` leaves the store
unchanged. -/
theorem claim_C5_ban_isBanned :
    (∀ st x,
      ValkeyBannedEmailRepository.isBanned (ValkeyBannedEmailRepository.ban st x) x = true) ∧
    (∀ st x, ValkeyBannedEmailRepository.ban (ValkeyBannedEmailRepository.ban st x) x
        = ValkeyBannedEmailRepository.ban st x) ∧
    (∀ st x n, ValkeyBannedEmailRepository.isBanned
        ((fun s => ValkeyBannedEmailRepository.ban s x)^[n + 1] st) x = true) ∧
    (∀ ops y, (∀ e, RepoOp.ban e ∈ ops → jsToLower e ≠ jsToLower y) →
      ValkeyBannedEmailRepository.isBanned (applyOps [] ops) y = false) ∧
    (∀ st e, applyOp st (RepoOp.isBanned e) = st) := by
  refine ⟨isBanned_ban, fun st x => sadd_sadd st (jsToLower x), ?_,
    not_banned_of_no_ban, fun st e => rfl⟩
  intro st x n
  induction n generalizing st with
  | zero => simpa using isBanned_ban st x
  | succ n ih =>
    rw [Function.iterate_succ_apply]
    exact ih _

/-- Claim C5 witness: banning a concrete address makes it banned, and a
never-banned address is not banned after a concrete operation sequence. -/
theorem claim_C5_witness :
    ValkeyBannedEmailRepository.isBanned
      (ValkeyBannedEmailRepository.ban [] (("a@b.c").data)) (("a@b.c").data) = true ∧
    ValkeyBannedEmailRepository.isBanned
      (applyOps [] [RepoOp.ban (("a@b.c").data)]) (("x@y.z").data) = false := by
  constructor
  · exact claim_C5_ban_isBanned.1 [] _
  · refine claim_C5_ban_isBanned.2.2.2.1 [RepoOp.ban (("a@b.c").data)] (("x@y.z").data) ?_
    intro e he
    have he' : e = ("a@b.c").data := by
      have hmem := List.mem_singleton.mp he
      injection hmem
    subst he'
    decide

/-- Claim C6: after `ban x` then `unban x`, `isBanned x` is false; and
`unban` of an address whose normalization is not a member returns the
store unchanged (succeeds silently). -/
theorem claim_C6_unban (st : Store) (x y : Str) (h : jsToLower y ∉ st) :
    ValkeyBannedEmailRepository.isBanned
      (ValkeyBannedEmailRepository.unban (ValkeyBannedEmailRepository.ban st x) x) x
      = false ∧
    ValkeyBannedEmailRepository.unban st y = st :=
  ⟨isBanned_unban_ban st x, unban_not_mem h⟩

/-- Claim C6 witness: ban-then-unban of a concrete address, and `unban`
of a concrete never-banned address on the empty store. -/
theorem claim_C6_witness :
    ValkeyBannedEmailRepository.isBanned
      (ValkeyBannedEmailRepository.unban
        (ValkeyBannedEmailRepository.ban [] (("a@b.c").data)) (("a@b.c").data))
      (("a@b.c").data) = false ∧
    ValkeyBannedEmailRepository.unban [] (("nonexistent@example.com").data) = [] :=
  claim_C6_unban [] (("a@b.c").data) (("nonexistent@example.com").data) (by decide)

/-- Claim C7: `getAllBanned` returns only lower-cased entries and contains
the lower-casing of every member; after any operation sequence from the
empty store it has no duplicates; immediately after `clear` it is empty;
and after banning two addresses distinct once normalized it has exactly
two members. -/
theorem claim_C7_getAllBanned :
    (∀ st, ∀ m ∈ ValkeyBannedEmailRepository.getAllBanned st, jsToLower m = m) ∧
    (∀ st, ∀ m ∈ st, jsToLower m ∈ ValkeyBannedEmailRepository.getAllBanned st) ∧
    (∀ ops, (ValkeyBannedEmailRepository.getAllBanned (applyOps [] ops)).Nodup) ∧
    (∀ st, ValkeyBannedEmailRepository.getAllBanned (ValkeyBannedEmailRepository.clear st)
        = []) ∧
    (∀ st a b, jsToLower a ≠ jsToLower b →
      (ValkeyBannedEmailRepository.getAllBanned
        (ValkeyBannedEmailRepository.ban
          (ValkeyBannedEmailRepository.ban (ValkeyBannedEmailRepository.clear st) a)
          b)).length = 2) := by
  refine ⟨?_, ?_, ?_, fun st => rfl, ?_⟩
  · intro st m hm
    obtain ⟨x, _, rfl⟩ := List.mem_map.mp hm
    exact jsToLower_idem x
  · intro st m hm
    exact List.mem_map_of_mem jsToLower hm
  · intro ops
    have hinv := applyOps_inv ops
    have hself : ValkeyBannedEmailRepository.getAllBanned (applyOps [] ops)
        = applyOps [] ops := by
      unfold ValkeyBannedEmailRepository.getAllBanned Valkey.smembers
      calc (applyOps [] ops).map jsToLower
          = (applyOps [] ops).map id := List.map_congr_left (fun a ha => hinv.1 a ha)
        _ = applyOps [] ops := List.map_id _
    rw [hself]
    exact hinv.2
  · intro st a b hab
    simp [ValkeyBannedEmailRepository.clear, Valkey.del, ValkeyBannedEmailRepository.ban,
      Valkey.sadd, ValkeyBannedEmailRepository.getAllBanned, Valkey.smembers, hab.symm]

/-- Claim C7 witness: banning two concretely distinct-once-normalized
addresses in mixed case yields exactly two members. -/
theorem claim_C7_witness :
    (ValkeyBannedEmailRepository.getAllBanned
      (ValkeyBannedEmailRepository.ban
        (ValkeyBannedEmailRepository.ban (ValkeyBannedEmailRepository.clear [])
          (("Spam1@Example.COM").data))
        (("spam2@example.com").data))).length = 2 :=
  claim_C7_getAllBanned.2.2.2.2 [] (("Spam1@Example.COM").data)
    (("spam2@example.com").data) (by decide)

/-- Claim C8: two valid-format inputs that agree after trimming and
lower-casing (i.e. differ only in case and surrounding whitespace) both
construct successfully and store the identical normalized value. -/
theorem claim_C8_case_whitespace (s t : Str)
    (hs : Email.isValid (jsTrim s) = true) (ht : Email.isValid (jsTrim t) = true)
    (h : jsToLower (jsTrim s) = jsToLower (jsTrim t)) :
    Email.create s = .ok (jsToLower (jsTrim s)) ∧
    Email.create t = .ok (jsToLower (jsTrim s)) := by
  refine ⟨create_eq_ok hs, ?_⟩
  rw [h]
  exact create_eq_ok ht

/-- Claim C8 witness: `"  TEST@EXAMPLE.COM "` and `"test@example.com"`
produce the same stored value. -/
theorem claim_C8_witness :
    Email.create (("  TEST@EXAMPLE.COM ").data) = .ok (("test@example.com").data) ∧
    Email.create (("test@example.com").data) = .ok (("test@example.com").data) := by
  have h := claim_C8_case_whitespace (("  TEST@EXAMPLE.COM ").data)
    (("test@example.com").data) (by decide) (by decide) (by decide)
  rwa [show jsToLower (jsTrim (("  TEST@EXAMPLE.COM ").data)) = ("test@example.com").data
    by decide] at h

/-- Claim C9: end-to-end, after `ban "Attacker@Example.COM"` the gate
blocks `"attacker@example.com"`, anti-spam-aware construction of that
string fails `Blocked`, and plain construction of the same string
succeeds (the plain constructor takes no gate at all). -/
theorem claim_C9_end_to_end :
    gateOfStore (ValkeyBannedEmailRepository.ban [] (("Attacker@Example.COM").data))
      (("attacker@example.com").data) = true ∧
    Email.createWithAntiSpam
      (gateOfStore (ValkeyBannedEmailRepository.ban [] (("Attacker@Example.COM").data)))
      (("attacker@example.com").data)
      = .error (.blocked (("attacker@example.com").data)) ∧
    Email.create (("attacker@example.com").data) = .ok (("attacker@example.com").data) :=
  ⟨by decide, by decide, by decide⟩

/-- Claim C10: every operation of the in-memory repository except `clear`
unconditionally fails with `Method not implemented.`; `clear` succeeds
with the emptied set.  The implementation therefore cannot satisfy the
five-operation repository contract. -/
theorem claim_C10_in_memory_not_implemented (st : Store) (email : Str) :
    InMemoryBannedEmailRepository.isBanned st email = .error "Method not implemented." ∧
    InMemoryBannedEmailRepository.ban st email = .error "Method not implemented." ∧
    InMemoryBannedEmailRepository.unban st email = .error "Method not implemented." ∧
    InMemoryBannedEmailRepository.getAllBanned st = .error "Method not implemented." ∧
    InMemoryBannedEmailRepository.clear st = .ok [] :=
  ⟨rfl, rfl, rfl, rfl, rfl⟩

example : Email.isValid (jsTrim (" a@b.c ").data) = true := by decide
example : Email.create (" A@B.C ").data = .ok (("a@b.c").data) := by decide
example : Email.create ("ab").data = .error (.invalidFormat (("ab").data)) := by decide
example : Email.isValid (("a@.c").data) = false := by decide
example : Email.isValid (("a@c.").data) = false := by decide
example : Email.isValid (("a..b@c.d").data) = false := by decide
example : Email.isValid (("a@b@c.d").data) = false := by decide
example :
    ValkeyBannedEmailRepository.isBanned
      (ValkeyBannedEmailRepository.ban [] (("Attacker@Example.COM").data))
      (("attacker@example.com").data) = true := by decide
